import Mathlib

/-!
Verification development for the CSLB collection pipeline
(`src/cslb/collector.py` together with `src/common/database.py`).

The Python code is shallowly embedded as executable Lean definitions:

* pandas cells are `Option String` (`none` models a NaN / missing value);
  a raw CSV row is an association list from column name to cell, so that a
  column absent from the frame (`List.lookup` misses) is distinguished from
  a present column holding a NaN cell;
* the two mapping dictionaries are association lists queried by first match
  (each key occurs once in a Python dict);
* the delta and main tables are lists of rows; the Postgres
  `INSERT ... ON CONFLICT (uuid) DO UPDATE` statement is a fold that either
  replaces the conflicting row wholesale or appends a fresh one;
* the SOAP fetch is a function from an abstract HTTP outcome to the pair of
  an optional decoded payload and the list of error contexts handed to
  `progress.log_error`.
-/

namespace Cslb

/-! ### String utilities mirroring the Python primitives used -/

/-- Python `s[:n]` on a string. -/
def strTake (n : Nat) (s : String) : String :=
  ((s.toList).take n).asString

/-- Whitespace recognised by Python `str.strip` (space, tab, LF, VT, FF, CR). -/
def isPySpace (c : Char) : Bool :=
  c = ' ' || c = Char.ofNat 9 || c = Char.ofNat 10 ||
  c = Char.ofNat 11 || c = Char.ofNat 12 || c = Char.ofNat 13

/-- Python `str.strip()`: drop leading and trailing whitespace. -/
def pyStrip (s : String) : String :=
  (((s.toList.dropWhile isPySpace).reverse.dropWhile isPySpace).reverse).asString

/-- Python `str.lower()` (the pipeline only meets ASCII data). -/
def lowerStr (s : String) : String :=
  (s.toList.map Char.toLower).asString

/-- Python `needle in hay` on strings: substring containment. -/
def containsSub (needle hay : String) : Bool :=
  decide (needle.toList <:+: hay.toList)

/-! ### Mapping tables and raw rows -/

/-- A Python dict as an association list; `dictGet m k` is `m.get(k)`.
Each key occurs at most once in a loaded dict, so first-match lookup is
exact. -/
def dictGet (m : List (String × String)) (k : String) : Option String :=
  match m with
  | [] => none
  | (k0, v0) :: rest => if k0 = k then some v0 else dictGet rest k

/-- Python truthiness on an optional string: `None` and the empty string are
falsy.  `truthy o = some s` exactly when `o` holds a non-empty string. -/
def truthy (o : Option String) : Option String :=
  match o with
  | none => none
  | some s => if s = "" then none else some s

/-- One raw CSV row: column name to cell; `none` cells model pandas NaN. -/
abbrev RawRow := List (String × Option String)

/-- Bracket access `row[k]`: `none` models the `KeyError` a missing column
raises; `some cell` the (possibly NaN) cell. -/
def cellGet (r : RawRow) (k : String) : Option (Option String) :=
  match r with
  | [] => none
  | (k0, v0) :: rest => if k0 = k then some v0 else cellGet rest k

/-- Pandas `row.get(k, default)`: the default is substituted only when the
column is absent from the frame; a present-but-NaN cell is returned as is. -/
def rowGet (r : RawRow) (k d : String) : Option String :=
  match cellGet r k with
  | none => some d
  | some v => v

/-! ### Canonical records and the resolver (`CSLBCollector.process_records`) -/

/-- Agency name taken from the default `CSLBConfig.agency_name`. -/
def cslbAgencyName : String := "Contractors State Licensing Board"

/-- The fixed URL template of `process_records` (everything left of the
interpolated license number). -/
def cslbUrlBase : String :=
  "https://www2.cslb.ca.gov/OnlineServices/CheckLicenseII/LicenseDetail.aspx?LicNum="

/-- The canonical record built by `process_records` (the 17 dict keys of the
`record = {...}` literal, in source order). -/
structure Record where
  uuid : String
  bbb_id : String
  agency_id : String
  business_name : Option String
  street : Option String
  city : Option String
  zip : Option String
  state_established : Option String
  date_established : Option String
  license_nbr : String
  agency_url : String
  phone_number : Option String
  license_expiration : Option String
  license_status : Option String
  reportable_data : String
  agency_name : String
  category : Option String
deriving DecidableEq

/-- The `record = {...}` literal of `process_records`, given the resolved
`bbb_id`, `agency_id` and the raw license cell `lic`. -/
def mkRecord (r : RawRow) (bbb agency lic : String) : Record :=
  { uuid := agency ++ lic
    bbb_id := bbb
    agency_id := agency
    business_name :=
      match rowGet r "FullBusinessName" "" with
      | none => rowGet r "BusinessName" ""
      | some s => if s = "" then rowGet r "BusinessName" "" else some s
    street := rowGet r "MailingAddress" ""
    city := rowGet r "City" ""
    zip := rowGet r "ZIPCode" ""
    state_established := rowGet r "State" ""
    date_established := rowGet r "IssueDate" ""
    license_nbr := lic
    agency_url := cslbUrlBase ++ lic
    phone_number := rowGet r "BusinessPhone" ""
    license_expiration := rowGet r "ExpirationDate" ""
    license_status := rowGet r "PrimaryStatus" ""
    reportable_data := "false"
    agency_name := cslbAgencyName
    category := rowGet r "Classifications(s)" "" }

/-- Outcome of the per-row body of the processing loop.  `rowError` models an
exception caught by the per-row handler (e.g. a `KeyError` from a missing
required column), which the handler counts as `invalid_license`. -/
inductive RowResult where
  | emit (rec : Record)
  | skipNoBBB (zipCode : String)
  | skipNoAgency
  | skipInvalidLicense
  | rowError
deriving DecidableEq

/-- The postal-code normalization of line 189:
`str(row["ZIPCode"])[:5] if pd.notna(row["ZIPCode"]) else ""`. -/
def zipCodeOf (zipCell : Option String) : String :=
  match zipCell with
  | some s => strTake 5 s
  | none => ""

/-- The body of the `for idx, row in df.iterrows()` loop of
`process_records`, lines 188-245 of `collector.py`. -/
def processRow (zm am : List (String × String)) (r : RawRow) : RowResult :=
  match cellGet r "ZIPCode" with
  | none => .rowError
  | some zipCell =>
    let zip_code := zipCodeOf zipCell
    match truthy (dictGet zm zip_code) with
    | none => .skipNoBBB zip_code
    | some bbb =>
      match truthy (dictGet am bbb) with
      | none => .skipNoAgency
      | some agency =>
        match cellGet r "LicenseNo" with
        | none => .rowError
        | some none => .skipInvalidLicense
        | some (some lic) =>
          if pyStrip lic = "" then .skipInvalidLicense
          else if containsSub "None" (agency ++ lic)
                  || containsSub "nan" (lowerStr (agency ++ lic)) then
            .skipInvalidLicense
          else .emit (mkRecord r bbb agency lic)

/-- The canonical record a row contributes, if any. -/
def emittedRec (zm am : List (String × String)) (r : RawRow) : Option Record :=
  match processRow zm am r with
  | .emit rec => some rec
  | _ => none

/-- The skip-statistics dictionary of `process_records`; the Python set
`unknown_zips` is kept as a duplicate-free list in insertion order. -/
structure Stats where
  no_bbb_id : Nat
  no_agency_id : Nat
  invalid_license : Nat
  unknown_zips : List String
deriving DecidableEq

def initStats : Stats := ⟨0, 0, 0, []⟩

/-- Line 194: `if zip_code and zip_code not in skipped_stats[...]: ...add(...)`. -/
def addUnknown (z : String) (uz : List String) : List String :=
  if z = "" then uz else if z ∈ uz then uz else uz ++ [z]

/-- Effect of one row on the accumulated records and statistics. -/
def stepRow (zm am : List (String × String)) (acc : List Record × Stats)
    (r : RawRow) : List Record × Stats :=
  match processRow zm am r with
  | .emit rec => (acc.1 ++ [rec], acc.2)
  | .skipNoBBB z =>
      (acc.1, { acc.2 with
                  no_bbb_id := acc.2.no_bbb_id + 1
                  unknown_zips := addUnknown z acc.2.unknown_zips })
  | .skipNoAgency =>
      (acc.1, { acc.2 with no_agency_id := acc.2.no_agency_id + 1 })
  | .skipInvalidLicense =>
      (acc.1, { acc.2 with invalid_license := acc.2.invalid_license + 1 })
  | .rowError =>
      (acc.1, { acc.2 with invalid_license := acc.2.invalid_license + 1 })

/-- The function `process_records` restricted to its pure core: fold the per-row body over
the parsed rows, collecting emitted records and skip statistics. -/
def processRecords (zm am : List (String × String)) (rows : List RawRow) :
    List Record × Stats :=
  rows.foldl (stepRow zm am) ([], initStats)

/-! Classifying predicates used to state the claims. -/

/-- The row reaches the license validation: its `ZIPCode` column exists, the
truncated code maps to a truthy BBB id, and that maps to a truthy agency id
(lines 188-204). -/
def resolvesToAgency (zm am : List (String × String)) (r : RawRow) : Bool :=
  match cellGet r "ZIPCode" with
  | none => false
  | some zipCell =>
    match truthy (dictGet zm (zipCodeOf zipCell)) with
    | none => false
    | some bbb => (truthy (dictGet am bbb)).isSome

/-- The license cell of the row is NaN or whitespace-only
(`pd.isna(row["LicenseNo"]) or not str(row["LicenseNo"]).strip()`). -/
def blankLicense (r : RawRow) : Bool :=
  match cellGet r "LicenseNo" with
  | some none => true
  | some (some lic) => pyStrip lic = ""
  | none => false

/-- The truncated postal code the loop computes for a row whose `ZIPCode`
column exists (`str(row["ZIPCode"])[:5] if pd.notna(...) else ""`). -/
def zipOf (r : RawRow) : Option String :=
  match cellGet r "ZIPCode" with
  | none => none
  | some zipCell => some (zipCodeOf zipCell)

/-- The row is skipped on the `no_bbb_id` branch. -/
def isNoBbb (zm am : List (String × String)) (r : RawRow) : Bool :=
  match processRow zm am r with
  | .skipNoBBB _ => true
  | _ => false

/-- The row is counted under `invalid_license` (explicit skip or caught
per-row exception). -/
def isInvalidRes (zm am : List (String × String)) (r : RawRow) : Bool :=
  match processRow zm am r with
  | .skipInvalidLicense => true
  | .rowError => true
  | _ => false

/-! ### The upsert sink (`DatabaseManager` and `CSLBCollector.upload_records`)

The delta table (`delta_bbb_uploaded_data`) holds bare records; the main
table (`bbb_uploaded_data`) additionally carries the `updated_at` audit
column, which the merge statement sets to `CURRENT_TIMESTAMP` on every
conflicting update and leaves at its column default on a fresh insert
(`updated_at = none` models the untouched default, and merge times are
abstract `Nat` instants). -/

structure MainRow where
  record : Record
  updated_at : Option Nat
deriving DecidableEq

structure DB where
  delta : List Record
  main : List MainRow
deriving DecidableEq

/-- Effect of one staged record under
`INSERT ... ON CONFLICT (uuid) DO UPDATE SET <every column> = EXCLUDED.<column>,
updated_at = CURRENT_TIMESTAMP`: on a uuid conflict the whole row is replaced
by the incoming record (timestamped `t`); otherwise the record is appended
fresh. -/
def mergeOne (t : Nat) (main : List MainRow) (d : Record) : List MainRow :=
  if ∃ m ∈ main, m.record.uuid = d.uuid then
    main.map (fun m => if m.record.uuid = d.uuid then ⟨d, some t⟩ else m)
  else
    main ++ [⟨d, none⟩]

/-- The row-by-row effect of the whole merge statement over the staged set. -/
def mergeMain (t : Nat) (main : List MainRow) (delta : List Record) :
    List MainRow :=
  delta.foldl (mergeOne t) main

/-- Model of `DatabaseManager.merge_delta_to_main` at time `t`.  When two staged rows
share a uuid Postgres aborts the statement ("ON CONFLICT DO UPDATE command
cannot affect row a second time") and `get_session` rolls the transaction
back, so the error branch leaves the database untouched at the call site. -/
def mergeDeltaToMain (t : Nat) (db : DB) : Except String DB :=
  if (db.delta.map (fun r => r.uuid)).Nodup then
    .ok ⟨db.delta, mergeMain t db.main db.delta⟩
  else
    .error "ON CONFLICT DO UPDATE command cannot affect row a second time"

/-- Slice off successive batches of `bs` records; the fuel argument (always
instantiated with the list length) only bounds the recursion. -/
def toBatchesAux (bs : Nat) : Nat → List Record → List (List Record)
  | 0, _ => []
  | _ + 1, [] => []
  | fuel + 1, a :: l => (a :: l).take bs :: toBatchesAux bs fuel ((a :: l).drop bs)

/-- The batch slicing `records[i:i + batch_size]` of the upload loop
(`range(0, len(records), batch_size)` needs a positive step, hence the
zero-step guard). -/
def toBatches (bs : Nat) (l : List Record) : List (List Record) :=
  if bs = 0 then [] else toBatchesAux bs l.length l

/-- Observable database actions of `upload_records`, in program order. -/
inductive UploadEvent where
  | clearDelta
  | insertDelta (batch : List Record)
  | insertMain (batch : List Record)
  | insertMainFailed (batch : List Record)
  | mergeDelta
deriving DecidableEq

structure UploadResult where
  ok : Bool
  db : DB
  trace : List UploadEvent
deriving DecidableEq

/-- One batch of the direct-mode upload loop: a plain insert into the main
table that succeeds only when it would not violate the unique index on
`uuid`; a failing batch is rolled back, logged and skipped. -/
def insertMainStep (p : DB × List UploadEvent) (b : List Record) :
    DB × List UploadEvent :=
  if (b.map (fun r => r.uuid)).Nodup
      ∧ ∀ r ∈ b, ∀ m ∈ p.1.main, m.record.uuid ≠ r.uuid then
    (⟨p.1.delta, p.1.main ++ b.map (fun r => ⟨r, none⟩)⟩,
     p.2 ++ [UploadEvent.insertMain b])
  else
    (p.1, p.2 ++ [UploadEvent.insertMainFailed b])

/-- Model of `CSLBCollector.upload_records` on an abstract database state.

* Empty input: early `return True`, no database action at all.
* Delta mode (`config.use_delta_table`, default `True`): clear the delta
  table, bulk-insert the batches into it, then merge into main; a merge
  failure is caught by the outer handler and yields `False` with the merge
  transaction rolled back.
* Direct mode: plain batch inserts into the main table through
  `insertMainStep`. -/
def uploadRecords (useDelta : Bool) (bs t : Nat) (recs : List Record)
    (db : DB) : UploadResult :=
  if recs.isEmpty then ⟨true, db, []⟩
  else if useDelta then
    let db1 : DB := ⟨[], db.main⟩
    let batches := toBatches bs recs
    let db2 := batches.foldl (fun (d : DB) b => ⟨d.delta ++ b, d.main⟩) db1
    let evs := UploadEvent.clearDelta ::
      (batches.map UploadEvent.insertDelta ++ [UploadEvent.mergeDelta])
    match mergeDeltaToMain t db2 with
    | .ok db3 => ⟨true, db3, evs⟩
    | .error _ => ⟨false, db2, evs⟩
  else
    let pr := (toBatches bs recs).foldl insertMainStep (db, [])
    ⟨true, pr.1, pr.2⟩

/-- The tail of `CSLBCollector.run` once processing has produced `records`
(lines 350-358): an empty record list logs a warning and returns `True`
without ever calling into the upload path. -/
def runFromRows (useDelta : Bool) (bs t : Nat)
    (zm am : List (String × String)) (rows : List RawRow) (db : DB) :
    UploadResult :=
  let recs := (processRecords zm am rows).1
  if recs.isEmpty then ⟨true, db, []⟩
  else uploadRecords useDelta bs t recs db

/-- The data content of the permanent store: its rows without the
`updated_at` audit column. -/
def mainData (main : List MainRow) : List Record :=
  main.map (fun m => m.record)

/-- The uuid column of the permanent store. -/
def mainKeys (main : List MainRow) : List String :=
  main.map (fun m => m.record.uuid)

/-- The staged record `d` is well represented in `main`: some row carries its
uuid, and every row carrying its uuid is exactly `d`. -/
def GoodKey (main : List MainRow) (d : Record) : Prop :=
  (∃ m ∈ main, m.record.uuid = d.uuid) ∧
  (∀ m ∈ main, m.record.uuid = d.uuid → m.record = d)

/-! ### The remote fetch (`CSLBCollector.fetch_data`)

The HTTP layer is abstracted to `Option (Nat × String)`: `none` is a
`requests.RequestException` raised while posting (connection failure or
timeout), `some (status, body)` a response with its status code and the byte
content rendered as text (the bodies of interest are plain printable ASCII,
for which Python `str(response.content)` is exactly `b` followed by the
content between single quotes, with no escaping). -/

/-- The ASCII single-quote character. -/
def squote : Char := Char.ofNat 39

/-- The ASCII equals-sign character (base64 padding). -/
def padChar : Char := Char.ofNat 61

/-- Python `str(b)` for a printable, escape-free byte string. -/
def pyStrBytes (s : String) : String :=
  "b" ++ String.mk [squote] ++ s ++ String.mk [squote]

/-- Python `"".join(content.splitlines())`: every line terminator removed.  The
contents at hand contain at most LF/CR terminators. -/
def removeNewlines (s : String) : String :=
  (s.toList.filter (fun c => !(c = Char.ofNat 10 || c = Char.ofNat 13))).asString

/-- Python `s[2:-1]`. -/
def slice2m1 (s : String) : String :=
  ((s.toList.drop 2).dropLast).asString

/-- Left-to-right, non-overlapping replacement of the non-empty pattern
`p :: ps` by `rep`, as Python `str.replace` performs it; the fuel argument
(always instantiated with the input length) only bounds the recursion, each
step consuming at least one input character. -/
def pyReplaceAux (p : Char) (ps rep : List Char) : Nat → List Char → List Char
  | 0, l => l
  | _ + 1, [] => []
  | fuel + 1, c :: rest =>
    if (p :: ps).isPrefixOf (c :: rest) then
      rep ++ pyReplaceAux p ps rep fuel (rest.drop ps.length)
    else
      c :: pyReplaceAux p ps rep fuel rest

/-- Python `s.replace(pat, rep)`. -/
def pyReplace (pat rep s : String) : String :=
  match pat.toList with
  | [] => s
  | p :: ps => (pyReplaceAux p ps rep.toList s.toList.length s.toList).asString

/-- The six-bit value of a base64 alphabet character. -/
def b64Val (c : Char) : Option Nat :=
  if 65 ≤ c.toNat ∧ c.toNat ≤ 90 then some (c.toNat - 65)
  else if 97 ≤ c.toNat ∧ c.toNat ≤ 122 then some (c.toNat - 97 + 26)
  else if 48 ≤ c.toNat ∧ c.toNat ≤ 57 then some (c.toNat - 48 + 52)
  else if c.toNat = 43 then some 62
  else if c.toNat = 47 then some 63
  else none

/-- Reassemble bytes from six-bit groups; a trailing group of two or three
sextets corresponds to two or one padding characters. -/
def b64Groups : List Nat → List Nat
  | a :: b :: c :: d :: rest =>
    (a * 4 + b / 16) :: ((b % 16) * 16 + c / 4) :: ((c % 4) * 64 + d) ::
      b64Groups rest
  | [a, b] => [a * 4 + b / 16]
  | [a, b, c] => [a * 4 + b / 16, (b % 16) * 16 + c / 4]
  | _ => []

/-- Python `base64.b64decode(s)` with the default `validate=False`:
characters outside the base-64 alphabet are discarded before the padding
check, then the decode fails (`binascii.Error`) unless the surviving
characters form complete four-character groups with at most two trailing
padding characters.  (Padding characters anywhere but at the end are
rejected here; the payloads at hand never produce them.) -/
def pyB64Decode (s : String) : Option (List Nat) :=
  let kept := s.toList.filter (fun c => (b64Val c).isSome || c = padChar)
  let pads := (kept.reverse.takeWhile (fun c => c = padChar)).length
  let data := kept.take (kept.length - pads)
  if data.any (fun c => c = padChar) then none
  else if 2 < pads then none
  else if (data.length + pads) % 4 = 0 then some (b64Groups (data.filterMap b64Val))
  else none

/-- The envelope text stripped at line 135 of `collector.py`. -/
def soapPre : String :=
  "<?xml version=\"1.0\" encoding=\"utf-8\"?><soap:Envelope xmlns:soap=\"http://schemas.xmlsoap.org/soap/envelope/\" xmlns:xsi=\"http://www.w3.org/2001/XMLSchema-instance\" xmlns:xsd=\"http://www.w3.org/2001/XMLSchema\"><soap:Body><GetMasterFileResponse xmlns=\"http://CSLB.Ca.gov/\"><GetMasterFileResult>"

/-- The envelope text stripped at line 136 of `collector.py`. -/
def soapSuf : String :=
  "</GetMasterFileResult></GetMasterFileResponse></soap:Body></soap:Envelope>"

/-- Lines 132-141 of `collector.py`: `str(response.content)`, strip the two
envelope strings, join the split lines, take `[2:-1]`, base64-decode. -/
def decodePhase (body : String) : Option (List Nat) :=
  pyB64Decode (slice2m1 (removeNewlines
    (pyReplace soapSuf "" (pyReplace soapPre "" (pyStrBytes body)))))

/-- Model of `CSLBCollector.fetch_data` on an abstract HTTP outcome.  The first
component is the value returned to the caller: the decoded payload bytes on
success (the code writes them to a temp file after a UTF-8 decode with
`errors="replace"`, which never fails, and returns the path), `none` on any
failure.  The second component lists the context strings handed to
`progress.log_error`: a `requests.RequestException` (including the
`raise_for_status` of a 4xx/5xx status) is reported as
"API request failed", any other exception — in particular the
`binascii.Error` of a failed base64 decode — as "Fetching data". -/
def fetchData (resp : Option (Nat × String)) :
    Option (List Nat) × List String :=
  match resp with
  | none => (none, ["API request failed"])
  | some (status, body) =>
    if 400 ≤ status then (none, ["API request failed"])
    else
      match decodePhase body with
      | some bytes => (some bytes, [])
      | none => (none, ["Fetching data"])

/-! ### Auxiliary view of the resolution cascade

`agencyOf` is not part of the embedding proper; it names the (bbb, agency)
pair the first half of the loop body resolves, so that the theorems can
hypothesise "the row resolves to an affiliate and agency" once. -/

/-- The (bbb id, agency id) pair rows 188-204 resolve, when they do. -/
def agencyOf (zm am : List (String × String)) (r : RawRow) :
    Option (String × String) :=
  match cellGet r "ZIPCode" with
  | none => none
  | some zipCell =>
    match truthy (dictGet zm (zipCodeOf zipCell)) with
    | none => none
    | some bbb =>
      match truthy (dictGet am bbb) with
      | none => none
      | some agency => some (bbb, agency)

/-! ### Concrete data for the witnesses and counterexamples -/

/-- Mapping table of the worked example in the spec: postal 94101 to BBB 1116. -/
def zm0 : List (String × String) := [("94101", "1116")]

/-- Mapping table of the worked example in the spec: BBB 1116 to agency 117. -/
def am0 : List (String × String) := [("1116", "117")]

/-- The example raw row of the spec: postal 94101, license A100. -/
def row94 : RawRow := [("ZIPCode", some "94101"), ("LicenseNo", some "A100")]

/-- Same identifying fields as `row94` but with extra, URL-like raw fields. -/
def rowUrl : RawRow :=
  [("ZIPCode", some "94101"), ("LicenseNo", some "A100"),
   ("Website", some "http://example.invalid/changed"),
   ("BusinessName", some "Different Co")]

/-- A resolving row whose license cell is NaN. -/
def rowBlank : RawRow := [("ZIPCode", some "94101"), ("LicenseNo", none)]

/-- A resolving row with a non-blank license whose lower-cased identity
contains the null-marker token `nan` (117ba*nan*a). -/
def rowBanana : RawRow := [("ZIPCode", some "94101"), ("LicenseNo", some "Banana")]

/-- The example unmatched row of the spec: postal 99999 absent from the table. -/
def rowZip99 : RawRow := [("ZIPCode", some "99999"), ("LicenseNo", some "B200")]

/-- A row whose `ZIPCode` cell is NaN: its computed postal code is `""`. -/
def rowNoZip : RawRow := [("ZIPCode", none), ("LicenseNo", some "C300")]

/-- Resolving valid row whose `City` column is present but holds a NaN. -/
def rowNanCity : RawRow :=
  [("ZIPCode", some "94101"), ("LicenseNo", some "A100"), ("City", none)]

/-- A concrete canonical record with identity `117L1` and status `A`. -/
def recA : Record :=
  { uuid := "117L1", bbb_id := "1116", agency_id := "117",
    business_name := some "Acme", street := some "1 Main St",
    city := some "SF", zip := some "94101",
    state_established := some "CA", date_established := some "2020-01-01",
    license_nbr := "L1", agency_url := cslbUrlBase ++ "L1",
    phone_number := some "555", license_expiration := some "2026-01-01",
    license_status := some "A", reportable_data := "false",
    agency_name := cslbAgencyName, category := some "B" }

/-- The same identity `117L1` re-collected later with status `B`. -/
def recB : Record :=
  { recA with license_status := some "B", business_name := some "Acme Two" }

/-- The permanent store after `recA` has been merged once. -/
def mainA : List MainRow := [⟨recA, none⟩]

/-- Staged `recB` over a permanent store already holding identity `117L1`. -/
def dbB : DB := ⟨[recB], mainA⟩

/-- A response body whose framing is not the expected SOAP envelope, yet
whose base64-alphabet characters number a multiple of four. -/
def mismatchBody : String := "(envelope)QUJB"

/-- The canonical record `row94` resolves to. -/
def rec94 : Record := mkRecord row94 "1116" "117" "A100"

/-- The canonical record `rowUrl` resolves to. -/
def recUrl : Record := mkRecord rowUrl "1116" "117" "A100"

/-- The canonical record `rowNanCity` resolves to. -/
def recNanCity : Record := mkRecord rowNanCity "1116" "117" "A100"

/-! ## Theorems -/

/-! ### Characterizing the resolution cascade -/

/-- Once the affiliate/agency lookups succeed, the loop body proceeds to the
license validation: a NaN or whitespace-only license cell is skipped as
`invalid_license`. -/
theorem processRow_blank_of_agency (zm am : List (String × String))
    (r : RawRow) (bbb agency : String)
    (h : agencyOf zm am r = some (bbb, agency)) (hb : blankLicense r = true) :
    processRow zm am r = RowResult.skipInvalidLicense := by
  unfold agencyOf at h
  unfold blankLicense at hb
  unfold processRow
  cases heq : cellGet r "ZIPCode" with
  | none => rw [heq] at h; exact Option.noConfusion h
  | some zipCell =>
    simp only [heq] at h ⊢
    cases heq2 : truthy (dictGet zm (zipCodeOf zipCell)) with
    | none => rw [heq2] at h; exact Option.noConfusion h
    | some bbb0 =>
      simp only [heq2] at h ⊢
      cases heq3 : truthy (dictGet am bbb0) with
      | none => rw [heq3] at h; exact Option.noConfusion h
      | some agency0 =>
        simp only [heq3] at h ⊢
        cases hlic : cellGet r "LicenseNo" with
        | none => rw [hlic] at hb; exact Bool.noConfusion hb
        | some c =>
          cases c with
          | none => simp only [hlic]
          | some lic =>
            rw [hlic] at hb
            simp only at hb
            simp only [hlic]
            rw [if_pos (of_decide_eq_true hb)]

/-- Inversion: an emitted record comes from a row whose lookups succeeded and
whose license cell is a string, and it is exactly `mkRecord`. -/
theorem emittedRec_inv (zm am : List (String × String)) (r : RawRow)
    (rec : Record) (h : emittedRec zm am r = some rec) :
    ∃ bbb agency lic,
      agencyOf zm am r = some (bbb, agency) ∧
      cellGet r "LicenseNo" = some (some lic) ∧
      rec = mkRecord r bbb agency lic := by
  unfold emittedRec at h
  unfold processRow at h
  cases heq : cellGet r "ZIPCode" with
  | none => rw [heq] at h; exact Option.noConfusion h
  | some zipCell =>
    simp only [heq] at h
    cases heq2 : truthy (dictGet zm (zipCodeOf zipCell)) with
    | none => rw [heq2] at h; exact Option.noConfusion h
    | some bbb0 =>
      simp only [heq2] at h
      cases heq3 : truthy (dictGet am bbb0) with
      | none => rw [heq3] at h; exact Option.noConfusion h
      | some agency0 =>
        simp only [heq3] at h
        cases hlic : cellGet r "LicenseNo" with
        | none => rw [hlic] at h; exact Option.noConfusion h
        | some c =>
          cases c with
          | none => rw [hlic] at h; exact Option.noConfusion h
          | some lic =>
            simp only [hlic] at h
            by_cases hs : pyStrip lic = ""
            · rw [if_pos hs] at h; exact Option.noConfusion h
            · rw [if_neg hs] at h
              by_cases hm : (containsSub "None" (agency0 ++ lic)
                  || containsSub "nan" (lowerStr (agency0 ++ lic))) = true
              · rw [if_pos hm] at h; exact Option.noConfusion h
              · rw [if_neg hm] at h
                refine ⟨bbb0, agency0, lic, ?_, rfl, ?_⟩
                · unfold agencyOf
                  simp only [heq, heq2, heq3]
                · exact (Option.some.inj h).symm

/-- The flag `resolvesToAgency` is exactly the success of `agencyOf`. -/
theorem resolvesToAgency_iff (zm am : List (String × String)) (r : RawRow) :
    resolvesToAgency zm am r = (agencyOf zm am r).isSome := by
  unfold resolvesToAgency agencyOf
  cases heq : cellGet r "ZIPCode" with
  | none => rfl
  | some zipCell =>
    simp only
    cases heq2 : truthy (dictGet zm (zipCodeOf zipCell)) with
    | none => rfl
    | some bbb0 =>
      simp only
      cases heq3 : truthy (dictGet am bbb0) <;> rfl

/-- A row whose computed postal code misses the postal table is skipped on
the `no_bbb_id` branch, carrying that code. -/
theorem processRow_noBbb (zm am : List (String × String)) (r : RawRow)
    (z : String) (h1 : zipOf r = some z) (h2 : dictGet zm z = none) :
    processRow zm am r = RowResult.skipNoBBB z := by
  unfold zipOf at h1
  unfold processRow
  cases heq : cellGet r "ZIPCode" with
  | none => rw [heq] at h1; exact Option.noConfusion h1
  | some zipCell =>
    simp only [heq] at h1 ⊢
    obtain rfl : zipCodeOf zipCell = z := by simpa using h1
    simp only [h2, truthy]

/-! ### Characterizing the processing fold -/

theorem stepRow_fst (zm am : List (String × String))
    (acc : List Record × Stats) (r : RawRow) :
    (stepRow zm am acc r).1 = acc.1 ++ (emittedRec zm am r).toList := by
  unfold stepRow emittedRec
  cases h : processRow zm am r <;> simp [h]

theorem foldl_step_fst (zm am : List (String × String)) :
    ∀ (rows : List RawRow) (acc : List Record × Stats),
      (rows.foldl (stepRow zm am) acc).1 =
        acc.1 ++ rows.filterMap (emittedRec zm am) := by
  intro rows
  induction rows with
  | nil => intro acc; simp
  | cons r rest ih =>
    intro acc
    simp only [List.foldl_cons, List.filterMap_cons]
    rw [ih, stepRow_fst]
    cases h : emittedRec zm am r <;> simp [h]

/-- The records `process_records` returns are exactly the per-row emissions,
in row order. -/
theorem processRecords_records (zm am : List (String × String))
    (rows : List RawRow) :
    (processRecords zm am rows).1 = rows.filterMap (emittedRec zm am) := by
  unfold processRecords
  rw [foldl_step_fst]
  rfl

theorem stepRow_invalid (zm am : List (String × String))
    (acc : List Record × Stats) (r : RawRow) :
    (stepRow zm am acc r).2.invalid_license =
      acc.2.invalid_license + (if isInvalidRes zm am r then 1 else 0) := by
  unfold stepRow isInvalidRes
  cases h : processRow zm am r <;> simp [h]

theorem foldl_step_invalid (zm am : List (String × String)) :
    ∀ (rows : List RawRow) (acc : List Record × Stats),
      (rows.foldl (stepRow zm am) acc).2.invalid_license =
        acc.2.invalid_license + rows.countP (isInvalidRes zm am) := by
  intro rows
  induction rows with
  | nil => intro acc; simp
  | cons r rest ih =>
    intro acc
    simp only [List.foldl_cons, List.countP_cons]
    rw [ih, stepRow_invalid]
    cases h : isInvalidRes zm am r
    · simp [h]
    · simp [h]
      omega

/-- The `invalid_license` counter counts exactly the rows skipped for license
reasons (or failing inside the per-row handler). -/
theorem processRecords_invalid (zm am : List (String × String))
    (rows : List RawRow) :
    (processRecords zm am rows).2.invalid_license =
      rows.countP (isInvalidRes zm am) := by
  unfold processRecords
  rw [foldl_step_invalid]
  simp [initStats]

theorem stepRow_noBbb (zm am : List (String × String))
    (acc : List Record × Stats) (r : RawRow) :
    (stepRow zm am acc r).2.no_bbb_id =
      acc.2.no_bbb_id + (if isNoBbb zm am r then 1 else 0) := by
  unfold stepRow isNoBbb
  cases h : processRow zm am r <;> simp [h]

theorem foldl_step_noBbb (zm am : List (String × String)) :
    ∀ (rows : List RawRow) (acc : List Record × Stats),
      (rows.foldl (stepRow zm am) acc).2.no_bbb_id =
        acc.2.no_bbb_id + rows.countP (isNoBbb zm am) := by
  intro rows
  induction rows with
  | nil => intro acc; simp
  | cons r rest ih =>
    intro acc
    simp only [List.foldl_cons, List.countP_cons]
    rw [ih, stepRow_noBbb]
    cases h : isNoBbb zm am r
    · simp [h]
    · simp [h]
      omega

/-- The `no_bbb_id` counter counts exactly the rows skipped on the postal
lookup. -/
theorem processRecords_noBbb (zm am : List (String × String))
    (rows : List RawRow) :
    (processRecords zm am rows).2.no_bbb_id = rows.countP (isNoBbb zm am) := by
  unfold processRecords
  rw [foldl_step_noBbb]
  simp [initStats]

theorem mem_addUnknown (z z0 : String) (uz : List String) :
    z ∈ addUnknown z0 uz ↔ z ∈ uz ∨ (z ≠ "" ∧ z0 = z) := by
  unfold addUnknown
  by_cases h0 : z0 = ""
  · subst h0
    rw [if_pos rfl]
    constructor
    · exact Or.inl
    · rintro (h | ⟨hz, rfl⟩)
      · exact h
      · exact absurd rfl hz
  · rw [if_neg h0]
    by_cases hin : z0 ∈ uz
    · rw [if_pos hin]
      constructor
      · exact Or.inl
      · rintro (h | ⟨hz, rfl⟩)
        · exact h
        · exact hin
    · rw [if_neg hin]
      rw [List.mem_append, List.mem_singleton]
      constructor
      · rintro (h | rfl)
        · exact Or.inl h
        · exact Or.inr ⟨fun hz => h0 hz, rfl⟩
      · rintro (h | ⟨hz, rfl⟩)
        · exact Or.inl h
        · exact Or.inr rfl

theorem stepRow_unknown (zm am : List (String × String))
    (acc : List Record × Stats) (r : RawRow) (z : String) :
    z ∈ (stepRow zm am acc r).2.unknown_zips ↔
      z ∈ acc.2.unknown_zips ∨
        (z ≠ "" ∧ processRow zm am r = RowResult.skipNoBBB z) := by
  unfold stepRow
  cases h : processRow zm am r with
  | skipNoBBB z0 =>
    simp only
    rw [mem_addUnknown]
    simp [RowResult.skipNoBBB.injEq]
  | emit rec => simp [h]
  | skipNoAgency => simp [h]
  | skipInvalidLicense => simp [h]
  | rowError => simp [h]

theorem foldl_step_unknown (zm am : List (String × String)) :
    ∀ (rows : List RawRow) (acc : List Record × Stats) (z : String),
      z ∈ (rows.foldl (stepRow zm am) acc).2.unknown_zips ↔
        z ∈ acc.2.unknown_zips ∨
          (z ≠ "" ∧ ∃ r ∈ rows, processRow zm am r = RowResult.skipNoBBB z) := by
  intro rows
  induction rows with
  | nil => intro acc z; simp
  | cons r rest ih =>
    intro acc z
    simp only [List.foldl_cons]
    rw [ih, stepRow_unknown]
    simp only [List.mem_cons]
    constructor
    · rintro ((h | ⟨hz, hr⟩) | ⟨hz, r0, hr0, hskip⟩)
      · exact Or.inl h
      · exact Or.inr ⟨hz, r, Or.inl rfl, hr⟩
      · exact Or.inr ⟨hz, r0, Or.inr hr0, hskip⟩
    · rintro (h | ⟨hz, r0, (rfl | hr0), hskip⟩)
      · exact Or.inl (Or.inl h)
      · exact Or.inl (Or.inr ⟨hz, hskip⟩)
      · exact Or.inr ⟨hz, r0, hr0, hskip⟩

/-- The reported set of unknown postal codes holds exactly the non-empty
codes of rows skipped on the postal lookup. -/
theorem processRecords_unknown_mem (zm am : List (String × String))
    (rows : List RawRow) (z : String) :
    z ∈ (processRecords zm am rows).2.unknown_zips ↔
      z ≠ "" ∧ ∃ r ∈ rows, processRow zm am r = RowResult.skipNoBBB z := by
  unfold processRecords
  rw [foldl_step_unknown]
  simp [initStats]

theorem length_filterMap_countP (f : RawRow → Option Record) :
    ∀ l : List RawRow,
      (l.filterMap f).length = l.countP (fun r => (f r).isSome) := by
  intro l
  induction l with
  | nil => simp
  | cons a l ih =>
    simp only [List.filterMap_cons, List.countP_cons]
    cases h : f a
    · simp [h, ih]
    · simp [h, ih]

theorem countP_add_countP_not (l : List RawRow) (p : RawRow → Bool) :
    l.countP p + l.countP (fun a => !(p a)) = l.length := by
  induction l with
  | nil => simp
  | cons a l ih =>
    simp only [List.countP_cons]
    cases h : p a
    · simp [h]
      omega
    · simp [h]
      omega

/-! ### Claim C3: identity construction -/

/-- C3: the identity of every emitted record is the bare concatenation of the
resolved agency id and the license number (no delimiter); hence two raw rows
that resolve to the same agency id and carry the same license number yield
the same identity, whatever their other fields. -/
theorem identity_is_concat (zm am : List (String × String))
    (r1 r2 : RawRow) (rec1 rec2 : Record)
    (h1 : emittedRec zm am r1 = some rec1)
    (h2 : emittedRec zm am r2 = some rec2) :
    rec1.uuid = rec1.agency_id ++ rec1.license_nbr ∧
    (rec1.agency_id = rec2.agency_id → rec1.license_nbr = rec2.license_nbr →
      rec1.uuid = rec2.uuid) := by
  obtain ⟨b1, a1, l1, -, -, rfl⟩ := emittedRec_inv zm am r1 rec1 h1
  obtain ⟨b2, a2, l2, -, -, rfl⟩ := emittedRec_inv zm am r2 rec2 h2
  refine ⟨rfl, ?_⟩
  intro ha hl
  simp only [mkRecord] at ha hl ⊢
  rw [ha, hl]

/-- C3 witness: the worked example of the spec resolves postal 94101 through BBB
1116 to agency 117 and license A100 to identity `117A100`. -/
theorem identity_is_concat_witness :
    emittedRec zm0 am0 row94 = some rec94 ∧
    rec94.uuid = rec94.agency_id ++ rec94.license_nbr ∧
    rec94.bbb_id = "1116" ∧ rec94.agency_id = "117" ∧ rec94.uuid = "117A100" :=
  ⟨by decide,
   (identity_is_concat zm0 am0 row94 row94 rec94 rec94 (by decide) (by decide)).1,
   by decide, by decide, by decide⟩

/-! ### Claim C6: URL derivation purity -/

/-- C6: the `agency_url` of every emitted record is the fixed template applied to
its license number, so it is a pure function of the license number: rows
agreeing on the license number get identical URLs no matter what other (even
URL-like) raw fields they carry. -/
theorem url_is_pure (zm am : List (String × String))
    (r1 r2 : RawRow) (rec1 rec2 : Record)
    (h1 : emittedRec zm am r1 = some rec1)
    (h2 : emittedRec zm am r2 = some rec2) :
    rec1.agency_url = cslbUrlBase ++ rec1.license_nbr ∧
    (rec1.license_nbr = rec2.license_nbr → rec1.agency_url = rec2.agency_url) := by
  obtain ⟨b1, a1, l1, -, -, rfl⟩ := emittedRec_inv zm am r1 rec1 h1
  obtain ⟨b2, a2, l2, -, -, rfl⟩ := emittedRec_inv zm am r2 rec2 h2
  refine ⟨rfl, ?_⟩
  intro hl
  simp only [mkRecord] at hl ⊢
  rw [hl]

/-- C6 witness: `rowUrl` differs from `row94` in URL-like and name fields
only; both emit, the URLs coincide and equal the fixed template applied to
license `A100`. -/
theorem url_is_pure_witness :
    emittedRec zm0 am0 row94 = some rec94 ∧
    emittedRec zm0 am0 rowUrl = some recUrl ∧
    recUrl.business_name ≠ rec94.business_name ∧
    recUrl.agency_url = rec94.agency_url ∧
    rec94.agency_url =
      "https://www2.cslb.ca.gov/OnlineServices/CheckLicenseII/LicenseDetail.aspx?LicNum=A100" :=
  ⟨by decide, by decide, by decide,
   (url_is_pure zm0 am0 rowUrl row94 recUrl rec94 (by decide) (by decide)).2
     (by decide),
   by decide⟩

/-! ### Claim C4: skips never abort -/

/-- C4 as stated is refuted: in the batch `[rowBlank, rowBanana]` both rows
resolve to an affiliate and agency and exactly one row has a missing/blank
license number, yet the batch yields 0 records (not N-1 = 1) and
`invalid_license` ends at 2 (not 1), because the identity built from license
`Banana` contains the null-marker token `nan` once lower-cased and is also
skipped as `invalid_license`. -/
theorem skip_one_blank_counterexample :
    (∀ r ∈ [rowBlank, rowBanana], resolvesToAgency zm0 am0 r = true) ∧
    [rowBlank, rowBanana].countP blankLicense = 1 ∧
    ¬((processRecords zm0 am0 [rowBlank, rowBanana]).1.length =
        [rowBlank, rowBanana].length - 1 ∧
      (processRecords zm0 am0 [rowBlank, rowBanana]).2.invalid_license = 1) := by
  decide

/-- C4 (amended): in a batch whose rows all resolve to an affiliate and
agency, if exactly one row has a missing or blank license number and every
other row passes the remaining license validation (its identity is free of
the null-marker tokens), then N-1 canonical records are emitted and
`invalid_license` ends at exactly one; resolution is total, so no failure
escapes the loop. -/
theorem skip_never_aborts (zm am : List (String × String))
    (rows : List RawRow)
    (hres : ∀ r ∈ rows,
      (blankLicense r = true → resolvesToAgency zm am r = true) ∧
      (blankLicense r = false → (emittedRec zm am r).isSome = true))
    (hone : rows.countP blankLicense = 1) :
    (processRecords zm am rows).1.length = rows.length - 1 ∧
    (processRecords zm am rows).2.invalid_license = 1 := by
  have hpoint : ∀ r ∈ rows,
      (emittedRec zm am r).isSome = !(blankLicense r) := by
    intro r hr
    cases hb : blankLicense r
    · simpa using (hres r hr).2 hb
    · have hres2 := (hres r hr).1 hb
      rw [resolvesToAgency_iff] at hres2
      obtain ⟨⟨bbb, agency⟩, hag⟩ := Option.isSome_iff_exists.mp hres2
      have hskip := processRow_blank_of_agency zm am r bbb agency hag hb
      unfold emittedRec
      rw [hskip]
      rfl
  have hinv : ∀ r ∈ rows, isInvalidRes zm am r = blankLicense r := by
    intro r hr
    cases hb : blankLicense r
    · have hs := (hres r hr).2 hb
      unfold emittedRec at hs
      unfold isInvalidRes
      cases hp : processRow zm am r <;> rw [hp] at hs <;> simp at hs ⊢
    · have hres2 := (hres r hr).1 hb
      rw [resolvesToAgency_iff] at hres2
      obtain ⟨⟨bbb, agency⟩, hag⟩ := Option.isSome_iff_exists.mp hres2
      unfold isInvalidRes
      rw [processRow_blank_of_agency zm am r bbb agency hag hb]
  constructor
  · rw [processRecords_records, length_filterMap_countP]
    have h1 : rows.countP (fun r => (emittedRec zm am r).isSome) =
        rows.countP (fun r => !(blankLicense r)) :=
      List.countP_congr (fun r hr => by rw [hpoint r hr])
    have h2 := countP_add_countP_not rows blankLicense
    omega
  · rw [processRecords_invalid]
    rw [List.countP_congr (fun r hr => by rw [hinv r hr])]
    exact hone

/-- C4 witness: the batch `[rowBlank, row94]` (both resolving, one blank
license, one fully valid) yields exactly one record and one
`invalid_license` skip. -/
theorem skip_never_aborts_witness :
    (processRecords zm0 am0 [rowBlank, row94]).1.length =
      [rowBlank, row94].length - 1 ∧
    (processRecords zm0 am0 [rowBlank, row94]).2.invalid_license = 1 :=
  skip_never_aborts zm0 am0 [rowBlank, row94] (by decide) (by decide)

/-! ### Claim C5: postal lookup miss -/

/-- C5 as stated is refuted on a row with a NaN postal cell: its computed
postal code is the empty string, which is absent from the table, so the row
is skipped and `no_bbb_id` counted — but the guard `if zip_code and ...`
keeps the empty code out of the reported set. -/
theorem lookup_miss_counterexample :
    zipOf rowNoZip = some "" ∧
    dictGet zm0 "" = none ∧
    (processRecords zm0 am0 [rowNoZip]).2.no_bbb_id = 1 ∧
    (processRecords zm0 am0 [rowNoZip]).1 = [] ∧
    (processRecords zm0 am0 [rowNoZip]).2.unknown_zips = [] := by
  decide

/-- C5 (amended): a row whose computed postal code misses the postal table
emits no record and is counted once under `no_affiliate`; the code appears
in the reported set of distinct unmatched postal codes provided it is
non-empty (a missing postal cell is counted but not reported). -/
theorem lookup_miss_skips (zm am : List (String × String))
    (rows : List RawRow) (r : RawRow) (z : String)
    (hmem : r ∈ rows) (hz : zipOf r = some z) (hmiss : dictGet zm z = none) :
    emittedRec zm am r = none ∧
    isNoBbb zm am r = true ∧
    (processRecords zm am rows).2.no_bbb_id = rows.countP (isNoBbb zm am) ∧
    (z ≠ "" → z ∈ (processRecords zm am rows).2.unknown_zips) := by
  have hskip := processRow_noBbb zm am r z hz hmiss
  refine ⟨?_, ?_, processRecords_noBbb zm am rows, ?_⟩
  · unfold emittedRec
    rw [hskip]
  · unfold isNoBbb
    rw [hskip]
  · intro hzne
    rw [processRecords_unknown_mem]
    exact ⟨hzne, r, hmem, hskip⟩

/-- C5 witness: the example row of the spec with postal 99999 absent from the
table is skipped, counted, and 99999 is reported. -/
theorem lookup_miss_skips_witness :
    emittedRec zm0 am0 rowZip99 = none ∧
    isNoBbb zm0 am0 rowZip99 = true ∧
    (processRecords zm0 am0 [rowZip99]).2.no_bbb_id =
      [rowZip99].countP (isNoBbb zm0 am0) ∧
    ("99999" ≠ "" →
      "99999" ∈ (processRecords zm0 am0 [rowZip99]).2.unknown_zips) :=
  lookup_miss_skips zm0 am0 [rowZip99] rowZip99 "99999" (by decide) (by decide)
    (by decide)

/-! ### Claim C9: pass-through fields -/

/-- C9 as stated is refuted: `rowNanCity` carries a present `City` column
holding the missing-value marker; the city of the emitted record is the null
marker, not the empty string the claim promises for an absent value. -/
theorem fields_copied_counterexample :
    emittedRec zm0 am0 rowNanCity = some recNanCity ∧
    cellGet rowNanCity "City" = some none ∧
    recNanCity.city = none ∧
    ¬ recNanCity.city = some "" := by
  decide

/-- C9 (amended): every business/contact/status/date field of an emitted
record is `row.get(column, "")`: the raw cell copied through unchanged when
the column is present (including a NaN cell copied as the null marker), and
the empty string only when the column is absent; the business name prefers
`FullBusinessName` and falls back to `BusinessName` when that is empty or
NaN. -/
theorem fields_copied (zm am : List (String × String)) (r : RawRow)
    (rec : Record) (h : emittedRec zm am r = some rec) :
    (∀ k, cellGet r k = none → rowGet r k "" = some "") ∧
    (∀ k v, cellGet r k = some v → rowGet r k "" = v) ∧
    rec.street = rowGet r "MailingAddress" "" ∧
    rec.city = rowGet r "City" "" ∧
    rec.zip = rowGet r "ZIPCode" "" ∧
    rec.state_established = rowGet r "State" "" ∧
    rec.date_established = rowGet r "IssueDate" "" ∧
    rec.phone_number = rowGet r "BusinessPhone" "" ∧
    rec.license_expiration = rowGet r "ExpirationDate" "" ∧
    rec.license_status = rowGet r "PrimaryStatus" "" ∧
    rec.category = rowGet r "Classifications(s)" "" ∧
    rec.business_name =
      (match rowGet r "FullBusinessName" "" with
       | none => rowGet r "BusinessName" ""
       | some s => if s = "" then rowGet r "BusinessName" "" else some s) := by
  obtain ⟨b, a, l, -, -, rfl⟩ := emittedRec_inv zm am r rec h
  refine ⟨?_, ?_, rfl, rfl, rfl, rfl, rfl, rfl, rfl, rfl, rfl, rfl⟩
  · intro k hk
    unfold rowGet
    rw [hk]
  · intro k v hk
    unfold rowGet
    rw [hk]

/-- C9 witness: on the worked example row the present cells are copied
verbatim and every absent column becomes the empty string. -/
theorem fields_copied_witness :
    emittedRec zm0 am0 row94 = some rec94 ∧
    rec94.street = rowGet row94 "MailingAddress" "" ∧
    rec94.zip = rowGet row94 "ZIPCode" "" ∧
    rec94.zip = some "94101" ∧
    rec94.street = some "" :=
  ⟨by decide,
   (fields_copied zm0 am0 row94 rec94 (by decide)).2.2.1,
   (fields_copied zm0 am0 row94 rec94 (by decide)).2.2.2.2.1,
   by decide, by decide⟩

/-! ### Claim C10: empty resolution leaves the stores untouched -/

/-- C10: when resolution yields no records, the run ends successfully with
`True`, never enters the upload path, performs no database action (empty
trace) and leaves the staging and permanent stores exactly as they were. -/
theorem empty_run_no_upload (useDelta : Bool) (bs t : Nat)
    (zm am : List (String × String)) (rows : List RawRow) (db : DB)
    (h : (processRecords zm am rows).1 = []) :
    runFromRows useDelta bs t zm am rows db = ⟨true, db, []⟩ := by
  unfold runFromRows
  simp [h]

/-- C10 witness: a run whose only row is unresolvable returns `True` and
leaves a non-trivial database untouched with no upload action. -/
theorem empty_run_no_upload_witness :
    (processRecords zm0 am0 [rowZip99]).1 = [] ∧
    runFromRows true 5000 1 zm0 am0 [rowZip99] ⟨[recA], mainA⟩ =
      ⟨true, ⟨[recA], mainA⟩, []⟩ :=
  ⟨by decide,
   empty_run_no_upload true 5000 1 zm0 am0 [rowZip99] ⟨[recA], mainA⟩
     (by decide)⟩

/-! ### Merge lemmas -/

theorem mergeMain_cons (t : Nat) (main : List MainRow) (e : Record)
    (rest : List Record) :
    mergeMain t main (e :: rest) = mergeMain t (mergeOne t main e) rest := rfl

theorem mergeOne_keys_nodup (t : Nat) (main : List MainRow) (d : Record)
    (h : (mainKeys main).Nodup) : (mainKeys (mergeOne t main d)).Nodup := by
  unfold mergeOne
  split
  · rename_i hex
    have : mainKeys (main.map
        (fun m => if m.record.uuid = d.uuid then ⟨d, some t⟩ else m)) =
        mainKeys main := by
      unfold mainKeys
      rw [List.map_map]
      apply List.map_congr_left
      intro m _
      by_cases h0 : m.record.uuid = d.uuid
      · simp [h0]
      · simp [h0]
    rw [this]
    exact h
  · rename_i hex
    have hnotin : d.uuid ∉ mainKeys main := by
      intro hmem
      obtain ⟨m, hm, he⟩ := List.mem_map.mp hmem
      exact hex ⟨m, hm, he⟩
    unfold mainKeys
    rw [List.map_append]
    rw [List.nodup_append]
    refine ⟨h, List.nodup_singleton _, ?_⟩
    intro x hx hx1
    simp only [List.map_cons, List.map_nil, List.mem_singleton] at hx1
    exact hnotin (hx1 ▸ hx)

theorem mergeMain_keys_nodup (t : Nat) :
    ∀ (delta : List Record) (main : List MainRow),
      (mainKeys main).Nodup → (mainKeys (mergeMain t main delta)).Nodup := by
  intro delta
  induction delta with
  | nil => intro main h; exact h
  | cons d rest ih =>
    intro main h
    rw [mergeMain_cons]
    exact ih (mergeOne t main d) (mergeOne_keys_nodup t main d h)

theorem goodKey_mergeOne_self (t : Nat) (main : List MainRow) (d : Record) :
    GoodKey (mergeOne t main d) d := by
  unfold mergeOne
  split
  · rename_i hex
    obtain ⟨m, hm, hmu⟩ := hex
    constructor
    · exact ⟨⟨d, some t⟩, List.mem_map.mpr ⟨m, hm, by rw [if_pos hmu]⟩, rfl⟩
    · intro m2 hm2 he
      obtain ⟨m0, hm0, hf⟩ := List.mem_map.mp hm2
      by_cases h0 : m0.record.uuid = d.uuid
      · rw [if_pos h0] at hf
        rw [← hf]
      · rw [if_neg h0] at hf
        exact absurd (hf ▸ he) h0
  · rename_i hex
    constructor
    · exact ⟨⟨d, none⟩, List.mem_append_right _ (List.mem_singleton.mpr rfl), rfl⟩
    · intro m2 hm2 he
      rcases List.mem_append.mp hm2 with h1 | h1
      · exact absurd ⟨m2, h1, he⟩ hex
      · rw [List.mem_singleton.mp h1]

theorem goodKey_mergeOne_preserve (t : Nat) (main : List MainRow)
    (d e : Record) (h : GoodKey main d)
    (hcase : e.uuid ≠ d.uuid ∨ e = d) : GoodKey (mergeOne t main e) d := by
  rcases hcase with hne | rfl
  · obtain ⟨⟨m, hm, hmu⟩, hall⟩ := h
    unfold mergeOne
    split
    · constructor
      · refine ⟨m, List.mem_map.mpr ⟨m, hm, ?_⟩, hmu⟩
        rw [if_neg (fun hx => hne ((hmu ▸ hx : d.uuid = e.uuid)).symm)]
      · intro m2 hm2 he
        obtain ⟨m0, hm0, hf⟩ := List.mem_map.mp hm2
        by_cases h0 : m0.record.uuid = e.uuid
        · rw [if_pos h0] at hf
          rw [← hf] at he
          exact absurd he hne
        · rw [if_neg h0] at hf
          exact hall m0 hm0 (hf ▸ he) ▸ (hf ▸ rfl)
    · constructor
      · exact ⟨m, List.mem_append_left _ hm, hmu⟩
      · intro m2 hm2 he
        rcases List.mem_append.mp hm2 with h1 | h1
        · exact hall m2 h1 he
        · rw [List.mem_singleton.mp h1] at he
          exact absurd he hne
  · exact goodKey_mergeOne_self t main _

theorem goodKey_fold_preserve (t : Nat) (d : Record) :
    ∀ (delta : List Record) (main : List MainRow), GoodKey main d →
      (∀ e ∈ delta, e.uuid ≠ d.uuid ∨ e = d) →
      GoodKey (mergeMain t main delta) d := by
  intro delta
  induction delta with
  | nil => intro main h _; exact h
  | cons e rest ih =>
    intro main h hall
    rw [mergeMain_cons]
    exact ih (mergeOne t main e)
      (goodKey_mergeOne_preserve t main d e h (hall e (List.mem_cons_self e rest)))
      (fun x hx => hall x (List.mem_cons_of_mem e hx))

theorem goodKey_mergeMain_all (t : Nat) :
    ∀ (delta : List Record) (main : List MainRow),
      (delta.map (fun r => r.uuid)).Nodup →
      ∀ d ∈ delta, GoodKey (mergeMain t main delta) d := by
  intro delta
  induction delta with
  | nil => intro main _ d hd; exact absurd hd (List.not_mem_nil d)
  | cons e rest ih =>
    intro main hnd d hd
    rw [List.map_cons, List.nodup_cons] at hnd
    rcases List.mem_cons.mp hd with rfl | hd2
    · rw [mergeMain_cons]
      apply goodKey_fold_preserve t d rest (mergeOne t main d)
        (goodKey_mergeOne_self t main d)
      intro x hx
      left
      intro hx2
      exact hnd.1 (hx2 ▸ List.mem_map.mpr ⟨x, hx, rfl⟩)
    · rw [mergeMain_cons]
      exact ih (mergeOne t main e) hnd.2 d hd2

theorem mergeOne_data_of_good (t : Nat) (main : List MainRow) (d : Record)
    (h : GoodKey main d) : mainData (mergeOne t main d) = mainData main := by
  obtain ⟨⟨m, hm, hmu⟩, hall⟩ := h
  unfold mergeOne
  rw [if_pos ⟨m, hm, hmu⟩]
  unfold mainData
  rw [List.map_map]
  apply List.map_congr_left
  intro m0 hm0
  by_cases h0 : m0.record.uuid = d.uuid
  · simp only [Function.comp, if_pos h0]
    exact (hall m0 hm0 h0).symm
  · simp [h0]

theorem mergeMain_data_of_good (t : Nat) :
    ∀ (delta : List Record) (main : List MainRow),
      (delta.map (fun r => r.uuid)).Nodup →
      (∀ d ∈ delta, GoodKey main d) →
      mainData (mergeMain t main delta) = mainData main := by
  intro delta
  induction delta with
  | nil => intro main _ _; rfl
  | cons e rest ih =>
    intro main hnd hgood
    rw [List.map_cons, List.nodup_cons] at hnd
    rw [mergeMain_cons]
    have hrest : ∀ d ∈ rest, GoodKey (mergeOne t main e) d := by
      intro d hd
      apply goodKey_mergeOne_preserve t main d e
        (hgood d (List.mem_cons_of_mem e hd))
      left
      intro hx
      exact hnd.1 (hx ▸ List.mem_map.mpr ⟨d, hd, rfl⟩)
    rw [ih (mergeOne t main e) hnd.2 hrest]
    exact mergeOne_data_of_good t main e (hgood e (List.mem_cons_self e rest))

theorem filter_eq_single_of_goodKey (d : Record) :
    ∀ main : List MainRow, (mainKeys main).Nodup → GoodKey main d →
      (main.filter (fun m => m.record.uuid == d.uuid)).map
        (fun m => m.record) = [d] := by
  intro main
  induction main with
  | nil =>
    intro _ hg
    obtain ⟨⟨m, hm, -⟩, -⟩ := hg
    exact absurd hm (List.not_mem_nil m)
  | cons m0 rest ih =>
    intro hnd hg
    have hnd2 : (m0.record.uuid ∉ mainKeys rest) ∧ (mainKeys rest).Nodup := by
      unfold mainKeys at hnd ⊢
      rw [List.map_cons, List.nodup_cons] at hnd
      exact hnd
    by_cases h0 : m0.record.uuid = d.uuid
    · have hcons : List.filter (fun m => m.record.uuid == d.uuid) (m0 :: rest) =
          m0 :: List.filter (fun m => m.record.uuid == d.uuid) rest := by
        simp [List.filter_cons, h0]
      rw [hcons]
      have hrest : rest.filter (fun m => m.record.uuid == d.uuid) = [] := by
        rw [List.filter_eq_nil_iff]
        intro x hx hbeq
        apply hnd2.1
        rw [h0, ← beq_iff_eq.mp hbeq]
        exact List.mem_map.mpr ⟨x, hx, rfl⟩
      rw [hrest, List.map_cons, List.map_nil]
      obtain ⟨-, hall⟩ := hg
      rw [hall m0 (List.mem_cons_self m0 rest) h0]
    · have hg2 : GoodKey rest d := by
        obtain ⟨⟨m, hm, hmu⟩, hall⟩ := hg
        rcases List.mem_cons.mp hm with rfl | hm2
        · exact absurd hmu h0
        · exact ⟨⟨m, hm2, hmu⟩, fun x hx he =>
            hall x (List.mem_cons_of_mem m0 hx) he⟩
      have hcons : List.filter (fun m => m.record.uuid == d.uuid) (m0 :: rest) =
          List.filter (fun m => m.record.uuid == d.uuid) rest := by
        simp [List.filter_cons, h0]
      rw [hcons]
      exact ih hnd2.2 hg2

/-! ### Claim C1: merge is keyed, complete, last-write-wins -/

/-- C1: provided the staged set and the permanent store each carry distinct
identities (the uniqueness of the store is the very constraint `ON CONFLICT
(uuid)` relies on), the merge statement succeeds, the permanent store keeps
one row per identity, and for every staged record the single row at its
identity carries exactly the staged record — every data field replaced by
the incoming value. -/
theorem merge_last_write_wins (t : Nat) (db : DB)
    (hd : (db.delta.map (fun r => r.uuid)).Nodup)
    (hm : (mainKeys db.main).Nodup) :
    mergeDeltaToMain t db = .ok ⟨db.delta, mergeMain t db.main db.delta⟩ ∧
    (mainKeys (mergeMain t db.main db.delta)).Nodup ∧
    ∀ d ∈ db.delta,
      ((mergeMain t db.main db.delta).filter
        (fun m => m.record.uuid == d.uuid)).map (fun m => m.record) = [d] := by
  refine ⟨?_, mergeMain_keys_nodup t db.delta db.main hm, ?_⟩
  · unfold mergeDeltaToMain
    rw [if_pos hd]
  · intro d hd2
    exact filter_eq_single_of_goodKey d _ (mergeMain_keys_nodup t _ _ hm)
      (goodKey_mergeMain_all t db.delta db.main hd d hd2)

/-- C1 witness: identity `117L1` is merged with status `A`, then re-staged
with status `B`; after the second merge the store holds exactly one row at
that identity, all fields from `recB` — status `B`, not a union. -/
theorem merge_last_write_wins_witness :
    mergeDeltaToMain 1 ⟨[recA], []⟩ = .ok ⟨[recA], mainA⟩ ∧
    (mergeDeltaToMain 2 dbB = .ok ⟨dbB.delta, mergeMain 2 dbB.main dbB.delta⟩ ∧
     (mainKeys (mergeMain 2 dbB.main dbB.delta)).Nodup ∧
     ∀ d ∈ dbB.delta,
       ((mergeMain 2 dbB.main dbB.delta).filter
         (fun m => m.record.uuid == d.uuid)).map (fun m => m.record) = [d]) ∧
    (mergeMain 2 dbB.main dbB.delta).map
      (fun m => m.record.license_status) = [some "B"] :=
  ⟨by rfl, merge_last_write_wins 2 dbB (by decide) (by decide), by decide⟩

/-! ### Upload characterization -/

theorem toBatchesAux_join (bs : Nat) (hbs : 0 < bs) :
    ∀ (fuel : Nat) (l : List Record), l.length ≤ fuel →
      (toBatchesAux bs fuel l).flatten = l := by
  intro fuel
  induction fuel with
  | zero =>
    intro l hl
    have h0 : l = [] := List.eq_nil_of_length_eq_zero (Nat.le_zero.mp hl)
    subst h0
    rfl
  | succ n ih =>
    intro l hl
    cases l with
    | nil => rfl
    | cons a as =>
      show ((a :: as).take bs :: toBatchesAux bs n ((a :: as).drop bs)).flatten
        = a :: as
      rw [List.flatten_cons]
      rw [ih ((a :: as).drop bs)
        (by simp only [List.length_drop, List.length_cons]
            simp only [List.length_cons] at hl
            omega)]
      exact List.take_append_drop bs (a :: as)

theorem toBatches_join (bs : Nat) (hbs : 0 < bs) (l : List Record) :
    (toBatches bs l).flatten = l := by
  unfold toBatches
  rw [if_neg (Nat.pos_iff_ne_zero.mp hbs)]
  exact toBatchesAux_join bs hbs l.length l (le_refl _)

theorem foldl_insert_delta :
    ∀ (batches : List (List Record)) (d : DB),
      batches.foldl (fun (d : DB) b => ⟨d.delta ++ b, d.main⟩) d =
        ⟨d.delta ++ batches.flatten, d.main⟩ := by
  intro batches
  induction batches with
  | nil => intro d; cases d; simp
  | cons b rest ih =>
    intro d
    rw [List.foldl_cons, ih]
    simp

/-- On a non-empty record set in delta mode, `upload_records` clears the
delta table, inserts the batches (whose concatenation is the record set),
and merges; the final staged content is the record set itself whatever was
staged before, and the trace is clear, then inserts, then merge. -/
theorem uploadRecords_delta_run (bs t : Nat) (recs : List Record) (db : DB)
    (hbs : 0 < bs) (hne : recs ≠ []) :
    uploadRecords true bs t recs db =
      if (recs.map (fun r => r.uuid)).Nodup then
        ⟨true, ⟨recs, mergeMain t db.main recs⟩,
         UploadEvent.clearDelta ::
           ((toBatches bs recs).map UploadEvent.insertDelta ++
             [UploadEvent.mergeDelta])⟩
      else
        ⟨false, ⟨recs, db.main⟩,
         UploadEvent.clearDelta ::
           ((toBatches bs recs).map UploadEvent.insertDelta ++
             [UploadEvent.mergeDelta])⟩ := by
  unfold uploadRecords
  rw [if_neg (fun h => hne (by simpa using h))]
  rw [if_pos rfl]
  dsimp only
  rw [foldl_insert_delta]
  simp only [List.nil_append]
  rw [toBatches_join bs hbs]
  unfold mergeDeltaToMain
  by_cases hnd : (recs.map (fun r => r.uuid)).Nodup
  · rw [if_pos hnd, if_pos hnd]
  · rw [if_neg hnd, if_neg hnd]

/-! ### Claim C2: stage+merge is idempotent on the data columns -/

/-- C2 as stated is refuted: the merge statement stamps
`updated_at = CURRENT_TIMESTAMP` on every conflicting row, so running
stage+merge twice (at times 1 and 2) leaves a different permanent-store row
than running it once — same data, different audit timestamp. -/
theorem stage_merge_idempotent_counterexample :
    (uploadRecords true 1 2 [recA]
      (uploadRecords true 1 1 [recA] (⟨[], []⟩ : DB)).db).db.main ≠
      (uploadRecords true 1 1 [recA] (⟨[], []⟩ : DB)).db.main ∧
    (uploadRecords true 1 1 [recA] (⟨[], []⟩ : DB)).db.main =
      [⟨recA, none⟩] ∧
    (uploadRecords true 1 2 [recA]
      (uploadRecords true 1 1 [recA] (⟨[], []⟩ : DB)).db).db.main =
      [⟨recA, some 2⟩] := by
  decide

/-- C2 (amended): for every record set and initial store, running
stage+merge twice leaves the permanent store with the same rows as running
it once on every column written from the staged records; only the
`updated_at` audit column may differ. -/
theorem stage_merge_idempotent_data (bs t1 t2 : Nat) (R : List Record)
    (db : DB) (hbs : 0 < bs) :
    mainData (uploadRecords true bs t2 R
        (uploadRecords true bs t1 R db).db).db.main =
      mainData (uploadRecords true bs t1 R db).db.main := by
  by_cases hne : R = []
  · subst hne
    rfl
  · rw [uploadRecords_delta_run bs t1 R db hbs hne]
    by_cases hnd : (R.map (fun r => r.uuid)).Nodup
    · rw [if_pos hnd]
      rw [uploadRecords_delta_run bs t2 R ⟨R, mergeMain t1 db.main R⟩ hbs hne]
      rw [if_pos hnd]
      exact mergeMain_data_of_good t2 R (mergeMain t1 db.main R) hnd
        (goodKey_mergeMain_all t1 R db.main hnd)
    · rw [if_neg hnd]
      rw [uploadRecords_delta_run bs t2 R ⟨R, db.main⟩ hbs hne]
      rw [if_neg hnd]

/-- C2 witness: the concrete double run of the counterexample does agree
with the single run on the data projection. -/
theorem stage_merge_idempotent_data_witness :
    mainData (uploadRecords true 1 2 [recA]
        (uploadRecords true 1 1 [recA] (⟨[], []⟩ : DB)).db).db.main =
      mainData (uploadRecords true 1 1 [recA] (⟨[], []⟩ : DB)).db.main :=
  stage_merge_idempotent_data 1 1 2 [recA] ⟨[], []⟩ (by decide)

/-! ### Claim C8: staging is cleared before any staging insert -/

theorem insertMainStep_delta :
    ∀ (batches : List (List Record)) (p : DB × List UploadEvent),
      ((batches.foldl insertMainStep p).1).delta = p.1.delta := by
  intro batches
  induction batches with
  | nil => intro p; rfl
  | cons b rest ih =>
    intro p
    rw [List.foldl_cons, ih]
    unfold insertMainStep
    split <;> rfl

/-- C8: in delta mode on a non-empty record set, the upload trace starts
with the clear of the staging table, before every staging insert, and the
staged content afterwards is exactly the records of this run — independent of
whatever was staged before; in direct mode the staging table is never
touched at all. -/
theorem staging_cleared_first (bs t : Nat) (recs : List Record) (db : DB)
    (hbs : 0 < bs) (hne : recs ≠ []) :
    (uploadRecords true bs t recs db).trace =
      UploadEvent.clearDelta ::
        ((toBatches bs recs).map UploadEvent.insertDelta ++
          [UploadEvent.mergeDelta]) ∧
    (uploadRecords true bs t recs db).db.delta = recs ∧
    (uploadRecords false bs t recs db).db.delta = db.delta := by
  refine ⟨?_, ?_, ?_⟩
  · rw [uploadRecords_delta_run bs t recs db hbs hne]
    split <;> rfl
  · rw [uploadRecords_delta_run bs t recs db hbs hne]
    split <;> rfl
  · unfold uploadRecords
    rw [if_neg (fun h => hne (by simpa using h))]
    exact insertMainStep_delta (toBatches bs recs) (db, [])

/-- C8 witness: with stale content staged from before, the run of a single
record clears it: the trace is clear-insert-merge and the staged content
afterwards is exactly the record of this run. -/
theorem staging_cleared_first_witness :
    (uploadRecords true 1 1 [recB] ⟨[recA], mainA⟩).trace =
      UploadEvent.clearDelta ::
        ((toBatches 1 [recB]).map UploadEvent.insertDelta ++
          [UploadEvent.mergeDelta]) ∧
    (uploadRecords true 1 1 [recB] ⟨[recA], mainA⟩).db.delta = [recB] ∧
    (uploadRecords false 1 1 [recB] ⟨[recA], mainA⟩).db.delta = [recA] :=
  staging_cleared_first 1 1 [recB] ⟨[recA], mainA⟩ (by decide) (by decide)

/-! ### Claim C7: fetch failure classification -/

/-- C7 as stated is refuted: this response carries a 200 status and a body
whose framing is not the expected SOAP envelope (neither stripped string
occurs in it), yet `fetch_data` succeeds — the stray envelope characters are
silently discarded by the non-strict mode of the base64 decoder, no `DecodeError`
is surfaced, and garbage is returned as the payload. -/
theorem fetch_mismatch_succeeds :
    containsSub soapPre (pyStrBytes mismatchBody) = false ∧
    containsSub soapSuf (pyStrBytes mismatchBody) = false ∧
    (fetchData (some (200, mismatchBody))).1.isSome = true ∧
    (fetchData (some (200, mismatchBody))).2 = [] := by
  decide

/-- C7 (amended): every fetch outcome is exactly one of success (a payload
and no error report), a transport-level failure (`requests.RequestException`
during the post or a 4xx/5xx status) reported under the context
"API request failed", or a decode-phase failure reported under the distinct
context "Fetching data"; both failure kinds return `None` to the caller, the
distinction living only in the error report, and the fetch issues no retry
(it is a single-shot function of one response).  A framing mismatch,
however, is not guaranteed to fail. -/
theorem fetch_error_classification :
    (∀ resp : Option (Nat × String),
      ((fetchData resp).2 = [] ∧ (fetchData resp).1.isSome = true) ∨
      ((fetchData resp).2 = ["API request failed"] ∧ (fetchData resp).1 = none) ∨
      ((fetchData resp).2 = ["Fetching data"] ∧ (fetchData resp).1 = none)) ∧
    ("API request failed" : String) ≠ "Fetching data" := by
  constructor
  · intro resp
    cases resp with
    | none => right; left; exact ⟨rfl, rfl⟩
    | some p =>
      obtain ⟨status, body⟩ := p
      by_cases h : 400 ≤ status
      · right; left
        constructor <;> simp only [fetchData, if_pos h]
      · cases hb : decodePhase body with
        | some bytes =>
          left
          constructor <;> simp only [fetchData, if_neg h, hb, Option.isSome_some]
        | none =>
          right; right
          constructor <;> simp only [fetchData, if_neg h, hb]
  · decide

end Cslb
